import Mathlib

/-!
Shallow embedding of the authoritative game server (`server.js`, most complete
revision): entity model, command handlers, timer callbacks and the fixed-rate
physics tick, together with proofs of the specification's claims about them.

Numbers: JavaScript `number` positions, velocities and timestamps are embedded
as `ℚ`; the integer-valued resources (health, ammo, magazine, kills, deaths)
as `Int`.  JavaScript values that may be missing, non-numeric, `NaN` or
infinite are embedded as `Option JsVal` with an explicit `JsVal` tag.

The player collection `players` is a string-keyed object; it is embedded as an
insertion-ordered association list (JavaScript objects enumerate string keys
in insertion order), which keeps the hit-scan iteration order of the source.
-/

namespace Shooter

/-! ## Constants (from the `--- Constants ---` block of server.js) -/

def START_HEALTH : Int := 100
def START_AMMO : Int := 100
def START_MAGAZINE : Int := 30
def RELOAD_DURATION : ℚ := 2000
def PLAYER_RADIUS : ℚ := 0.4
def PLAYER_HITBOX_RADIUS : ℚ := 0.6
def PLAYER_HEIGHT : ℚ := 1.8
def PROJECTILE_SPEED : ℚ := 50
def PROJECTILE_DAMAGE : Int := 10
def PROJECTILE_LIFETIME : ℚ := 2000
def RESPAWN_TIME : ℚ := 3000
def INACTIVITY_TIMEOUT : ℚ := 30000

/-! ## Entity model -/

/-- One entry of the `players` object. -/
structure Player where
  id : String
  name : String
  x : ℚ
  y : ℚ
  z : ℚ
  pitch : ℚ
  yaw : ℚ
  health : Int
  ammo : Int
  magazine : Int
  kills : Int
  deaths : Int
  reloading : Bool
  reloadStartTime : ℚ
  lastUpdateTime : ℚ
  deriving DecidableEq, Repr

/-- One entry of the `projectiles` array. -/
structure Projectile where
  id : String
  ownerId : String
  spawnTime : ℚ
  x : ℚ
  y : ℚ
  z : ℚ
  vx : ℚ
  vy : ℚ
  vz : ℚ
  deriving DecidableEq, Repr

/-- The fresh player record built in the `connection` handler.  The random
spawn coordinates and `Date.now()` are parameters. -/
def newPlayer (id name : String) (x z now : ℚ) : Player :=
  { id := id, name := name, x := x, y := 1.6, z := z, pitch := 0, yaw := 0,
    health := START_HEALTH, ammo := START_AMMO, magazine := START_MAGAZINE,
    kills := 0, deaths := 0, reloading := false, reloadStartTime := 0,
    lastUpdateTime := now }

/-! ## The players object as an insertion-ordered association list -/

/-- The `players` object. -/
abbrev PMap := List (String × Player)

/-- Property lookup `players[pid]` (first entry with the key, in insertion
order). -/
def PMap.lookup : PMap → String → Option Player
  | [], _ => none
  | e :: rest, pid => if e.1 = pid then some e.2 else PMap.lookup rest pid

/-- In-place mutation of the record stored at `pid` (if present): every entry
with key `pid` is rewritten through `f`, all other entries are untouched. -/
def PMap.update (m : PMap) (pid : String) (f : Player → Player) : PMap :=
  (m : List (String × Player)).map (fun e => if e.1 = pid then (e.1, f e.2) else e)

/-- `delete players[pid]`. -/
def PMap.erase (m : PMap) (pid : String) : PMap :=
  (m : List (String × Player)).filter (fun e => ¬ e.1 = pid)

/-! ## JavaScript payload values and the validation helpers -/

/-- A JavaScript value found in a client payload field. -/
inductive JsVal where
  | num (q : ℚ)
  | nan
  | posInf
  | negInf
  | nonNumber
  deriving DecidableEq, Repr

/-- `typeof v === 'number' && !isNaN(v) && isFinite(v)` for a possibly
missing field. -/
def finiteNumber : Option JsVal → Bool
  | some (JsVal.num _) => true
  | _ => false

/-- Numeric content of a field, defined on fields that pass `finiteNumber`. -/
def numVal : Option JsVal → ℚ
  | some (JsVal.num q) => q
  | _ => 0

/-- A `position`/`direction`/`startPos` payload object; `none` fields are
missing properties.  A wholly missing or non-object payload is `none` at the
`Option RawVec3` use sites. -/
structure RawVec3 where
  x : Option JsVal
  y : Option JsVal
  z : Option JsVal
  deriving DecidableEq, Repr

/-- A `rotation` payload object. -/
structure RawRot where
  pitch : Option JsVal
  yaw : Option JsVal
  deriving DecidableEq, Repr

/-- `isValidPosition`: a non-null object whose `x`, `y`, `z` are finite
numbers. -/
def isValidPosition : Option RawVec3 → Bool
  | none => false
  | some v => finiteNumber v.x && finiteNumber v.y && finiteNumber v.z

/-- `isValidRotation`: a non-null object whose `pitch` and `yaw` are finite
numbers. -/
def isValidRotation : Option RawRot → Bool
  | none => false
  | some r => finiteNumber r.pitch && finiteNumber r.yaw

/-- `isValidDirection`: same field checks as `isValidPosition`. -/
def isValidDirection : Option RawVec3 → Bool
  | none => false
  | some v => finiteNumber v.x && finiteNumber v.y && finiteNumber v.z

/-! ## Outbound messages -/

/-- Delivery mode of an outbound message produced by a handler: `broadcast`
goes to every connected client (the `broadcast` helper with no excluded
sender); `toSender` is `ws.send` on the handling connection only. -/
inductive Delivery where
  | broadcast
  | toSender
  deriving DecidableEq, Repr

/-- Outbound messages the embedded handlers produce. -/
inductive OutMsg where
  | projectileCreated (p : Projectile)
  | ammoUpdate (magazine ammo : Int)
  | playerRespawned (id : String) (x y z : ℚ) (health magazine ammo : Int)
  deriving DecidableEq, Repr

/-! ## Command handlers (the `ws.on('message')` switch) -/

/-- Effect of the `player_update` case on the handling player: apply the
position and rotation only when both payloads validate, otherwise leave the
record unchanged. -/
def playerUpdateHandler (p : Player) (position : Option RawVec3)
    (rotation : Option RawRot) : Player :=
  if isValidPosition position && isValidRotation rotation then
    match position, rotation with
    | some pos, some rot =>
      { p with x := numVal pos.x, y := numVal pos.y, z := numVal pos.z,
               pitch := numVal rot.pitch, yaw := numVal rot.yaw }
    | _, _ => p
  else p

/-- Result of the `shoot` case. -/
structure ShootResult where
  player : Player
  counter : Nat
  newProjectile : Option Projectile
  events : List (Delivery × OutMsg)
  deriving DecidableEq, Repr

/-- The `shoot` case.  Note the source order: the magazine is decremented and
the projectile id counter advanced *before* the payload validation; a failing
validation then breaks out without creating a projectile and without
refunding the round. -/
def shootHandler (pid : String) (p : Player) (counter : Nat)
    (direction startPos : Option RawVec3) (now : ℚ) : ShootResult :=
  if p.health > 0 && !p.reloading && p.magazine > 0 then
    let p1 : Player := { p with magazine := p.magazine - 1 }
    let counter1 := counter + 1
    if !(isValidPosition startPos) || !(isValidDirection direction) then
      { player := p1, counter := counter1, newProjectile := none, events := [] }
    else
      match direction, startPos with
      | some dir, some sp =>
        let proj : Projectile :=
          { id := "proj_" ++ toString counter, ownerId := pid, spawnTime := now,
            x := numVal sp.x, y := numVal sp.y, z := numVal sp.z,
            vx := numVal dir.x * PROJECTILE_SPEED,
            vy := numVal dir.y * PROJECTILE_SPEED,
            vz := numVal dir.z * PROJECTILE_SPEED }
        { player := p1, counter := counter1, newProjectile := some proj,
          events := [(Delivery.broadcast, OutMsg.projectileCreated proj),
                     (Delivery.toSender, OutMsg.ammoUpdate p1.magazine p1.ammo)] }
      | _, _ =>
        { player := p1, counter := counter1, newProjectile := none, events := [] }
  else
    { player := p, counter := counter, newProjectile := none, events := [] }

/-- The `request_reload` case: start a reload (set the flag and the start
timestamp) when alive, not already reloading, magazine not full and reserve
ammo available; the completion itself is the separately fired
`reloadComplete`. -/
def requestReloadHandler (p : Player) (now : ℚ) : Player :=
  if p.health > 0 && !p.reloading && p.magazine < START_MAGAZINE && p.ammo > 0 then
    { p with reloading := true, reloadStartTime := now }
  else p

/-- Ammo transfer performed by a reload completion that applies its effect. -/
def finishReload (p : Player) : Player :=
  let ammoNeeded := START_MAGAZINE - p.magazine
  let ammoToMove := min ammoNeeded p.ammo
  { p with magazine := p.magazine + ammoToMove, ammo := p.ammo - ammoToMove,
           reloading := false }

/-- The reload-completion `setTimeout` callback, embedded faithfully.  The
source guard is `currentPlayer && currentPlayer.reloading &&
currentPlayer.reloadStartTime === player.reloadStartTime`, where `player` is
the object reference captured by the closure.  Player ids are never reused,
so whenever `players[playerId]` still exists at fire time it is the very
object the closure captured; the third conjunct therefore reads the same
mutable field twice and is written here as the reflexive comparison it
evaluates to. -/
def reloadComplete (ps : PMap) (pid : String) : PMap × List (Delivery × OutMsg) :=
  match ps.lookup pid with
  | none => (ps, [])
  | some cp =>
    if cp.reloading && decide (cp.reloadStartTime = cp.reloadStartTime) then
      let cp1 := finishReload cp
      (ps.update pid (fun _ => cp1),
       [(Delivery.toSender, OutMsg.ammoUpdate cp1.magazine cp1.ammo)])
    else (ps, [])

/-- The reload completion as the specification words it: the callback also
compares the player's current `reloadStartTime` with the start time belonging
to the reload that scheduled this timer (`scheduledStart`), and applies
nothing on a mismatch.  Used only to compare the claimed behaviour with
`reloadComplete`. -/
def reloadCompleteSpec (ps : PMap) (pid : String) (scheduledStart : ℚ) :
    PMap × List (Delivery × OutMsg) :=
  match ps.lookup pid with
  | none => (ps, [])
  | some cp =>
    if cp.reloading && decide (cp.reloadStartTime = scheduledStart) then
      let cp1 := finishReload cp
      (ps.update pid (fun _ => cp1),
       [(Delivery.toSender, OutMsg.ammoUpdate cp1.magazine cp1.ammo)])
    else (ps, [])

/-- The `respawnPlayer` timer callback: re-validate existence, re-check
`health <= 0`, then reset stats and position.  Random respawn coordinates and
`Date.now()` are parameters. -/
def respawnPlayer (ps : PMap) (pid : String) (rx rz now : ℚ) :
    PMap × List (Delivery × OutMsg) :=
  match ps.lookup pid with
  | none => (ps, [])
  | some player =>
    if player.health ≤ 0 then
      let p1 : Player :=
        { player with x := rx, y := 1.6, z := rz,
                      health := START_HEALTH, magazine := START_MAGAZINE,
                      ammo := START_AMMO, reloading := false,
                      lastUpdateTime := now }
      (ps.update pid (fun _ => p1),
       [(Delivery.broadcast,
         OutMsg.playerRespawned pid p1.x p1.y p1.z p1.health p1.magazine p1.ammo)])
    else (ps, [])

/-! ## Collision & physics engine (the game-loop `projectiles.filter`) -/

/-- Position integration `p.x += p.vx * deltaTime` (and y, z). -/
def moveProj (dt : ℚ) (p : Projectile) : Projectile :=
  { p with x := p.x + p.vx * dt, y := p.y + p.vy * dt, z := p.z + p.vz * dt }

/-- Expiry / out-of-bounds test
`now - p.spawnTime > PROJECTILE_LIFETIME || p.y < -5`. -/
def projExpired (now : ℚ) (p : Projectile) : Bool :=
  decide (now - p.spawnTime > PROJECTILE_LIFETIME) || decide (p.y < -5)

/-- The per-target test of the hit-scan loop: skip the owner and dead (or
absent) targets, then require the vertical band check and the squared planar
distance check. -/
def eligibleTarget (p : Projectile) (targetId : String) (target : Player) : Bool :=
  !(decide (p.ownerId = targetId)) && decide (target.health > 0) &&
    decide (|p.y - target.y| < PLAYER_HEIGHT / 2 + 0.2) &&
    decide ((p.x - target.x) ^ 2 + (p.z - target.z) ^ 2 < PLAYER_HITBOX_RADIUS ^ 2)

/-- First eligible target in the iteration order of the `players` object
(insertion order), as scanned by `for (const targetId in players)`. -/
def findTarget (p : Projectile) : PMap → Option (String × Player)
  | [] => none
  | e :: rest => if eligibleTarget p e.1 e.2 then some e else findTarget p rest

/-- A `hits` array entry. -/
structure HitEvent where
  targetId : String
  newHealth : Int
  attackerId : String
  attackerName : String
  deriving DecidableEq, Repr

/-- A `deaths` array entry. -/
structure DeathEvent where
  victimId : String
  victimName : String
  attackerId : String
  attackerName : String
  deriving DecidableEq, Repr

/-- Result of applying one registered hit. -/
structure HitResult where
  players : PMap
  hit : HitEvent
  death : Option DeathEvent
  respawnsScheduled : List String
  deriving DecidableEq, Repr

/-- Applying a registered hit of projectile `p` on target entry
`(tid, target)`: subtract the damage, record the hit event with the
post-damage (pre-clamp) health, and on a lethal hit clamp to 0, bump the
death counter, cancel the reload flag, credit the attacker's kill (when the
attacker is present and not the victim), record the death event and schedule
one respawn. -/
def processHit (ps : PMap) (p : Projectile) (tid : String) (target : Player) :
    HitResult :=
  let t1 : Player := { target with health := target.health - PROJECTILE_DAMAGE }
  let attacker := ps.lookup p.ownerId
  let attackerName := match attacker with
    | some a => a.name
    | none => "Unknown"
  let ev : HitEvent :=
    { targetId := tid, newHealth := t1.health, attackerId := p.ownerId,
      attackerName := attackerName }
  if t1.health ≤ 0 then
    let t2 : Player := { t1 with health := 0, deaths := target.deaths + 1,
                                 reloading := false }
    let ps1 := ps.update tid (fun _ => t2)
    let ps2 := match attacker with
      | some a =>
        if a.id = tid then ps1
        else ps1.update p.ownerId (fun a1 => { a1 with kills := a1.kills + 1 })
      | none => ps1
    { players := ps2, hit := ev,
      death := some { victimId := tid, victimName := target.name,
                      attackerId := p.ownerId, attackerName := attackerName },
      respawnsScheduled := [tid] }
  else
    { players := ps.update tid (fun _ => t1), hit := ev, death := none,
      respawnsScheduled := [] }

/-- Accumulator threaded through the tick's `projectiles.filter`. -/
structure TickAcc where
  players : PMap
  hits : List HitEvent
  deaths : List DeathEvent
  removed : List String
  survivors : List Projectile
  respawnsScheduled : List String
  deriving DecidableEq, Repr

/-- One iteration of the tick's filter body for projectile `q`: integrate the
position, then either expire it, register a hit on the first eligible target,
or keep it for the next tick. -/
def stepProj (now dt : ℚ) (acc : TickAcc) (q : Projectile) : TickAcc :=
  let p := moveProj dt q
  if projExpired now p then
    { acc with removed := acc.removed ++ [p.id] }
  else
    match findTarget p acc.players with
    | none => { acc with survivors := acc.survivors ++ [p] }
    | some (tid, target) =>
      let r := processHit acc.players p tid target
      { acc with players := r.players,
                 hits := acc.hits ++ [r.hit],
                 deaths := acc.deaths ++ r.death.toList,
                 removed := acc.removed ++ [p.id],
                 respawnsScheduled := acc.respawnsScheduled ++ r.respawnsScheduled }

/-- The physics phase of one game-loop tick (`now` in milliseconds, `dt` the
clamped delta time in seconds), over the whole projectile list. -/
def runTick (now dt : ℚ) (ps : PMap) (projs : List Projectile) : TickAcc :=
  projs.foldl (stepProj now dt)
    { players := ps, hits := [], deaths := [], removed := [], survivors := [],
      respawnsScheduled := [] }

/-! ## World state and the event-loop operations -/

/-- The process-wide mutable state. -/
structure World where
  players : PMap
  projectiles : List Projectile
  projectileIdCounter : Nat
  deriving DecidableEq, Repr

/-- The empty initial state. -/
def World.init : World :=
  { players := [], projectiles := [], projectileIdCounter := 0 }

/-- An inbound client command, tagged as in the `data.type` switch. -/
inductive ClientMsg where
  | playerUpdate (position : Option RawVec3) (rotation : Option RawRot)
  | shoot (direction startPos : Option RawVec3)
  | requestReload
  deriving DecidableEq, Repr

/-- The `ws.on('message')` handler: resolve the player (silently drop the
command when absent), refresh `lastUpdateTime`, apply the dead-player gate
(none of the three handled commands is on the allow-list), then dispatch. -/
def handleMessage (w : World) (pid : String) (msg : ClientMsg) (now : ℚ) :
    World × List (Delivery × OutMsg) :=
  match w.players.lookup pid with
  | none => (w, [])
  | some player0 =>
    let player : Player := { player0 with lastUpdateTime := now }
    if player.health ≤ 0 then
      ({ w with players := w.players.update pid (fun _ => player) }, [])
    else
      match msg with
      | ClientMsg.playerUpdate pos rot =>
        ({ w with players :=
            w.players.update pid (fun _ => playerUpdateHandler player pos rot) }, [])
      | ClientMsg.shoot dir sp =>
        let r := shootHandler pid player w.projectileIdCounter dir sp now
        ({ players := w.players.update pid (fun _ => r.player),
           projectiles := w.projectiles ++ r.newProjectile.toList,
           projectileIdCounter := r.counter }, r.events)
      | ClientMsg.requestReload =>
        ({ w with players :=
            w.players.update pid (fun _ => requestReloadHandler player now) }, [])

/-- One asynchronous event of the single-threaded loop: a connection, an
inbound command, a timer callback (reload completion or respawn), a game-loop
tick, or a disconnection.  Randomness and wall-clock readings are carried as
parameters. -/
inductive Op where
  | join (pid name : String) (x z now : ℚ)
  | message (pid : String) (msg : ClientMsg) (now : ℚ)
  | reloadFire (pid : String)
  | respawnFire (pid : String) (rx rz now : ℚ)
  | tick (now dt : ℚ)
  | disconnect (pid : String)
  deriving DecidableEq, Repr

/-- State change of one event.  The tick's inactivity sweep only terminates
sockets (player removal then arrives through the separate `close` event,
i.e. `Op.disconnect`), so the tick mutates state only through the physics
phase. -/
def applyOp (w : World) (op : Op) : World :=
  match op with
  | Op.join pid name x z now =>
    { w with players := w.players ++ [(pid, newPlayer pid name x z now)] }
  | Op.message pid msg now => (handleMessage w pid msg now).1
  | Op.reloadFire pid =>
    { w with players := (reloadComplete w.players pid).1 }
  | Op.respawnFire pid rx rz now =>
    { w with players := (respawnPlayer w.players pid rx rz now).1 }
  | Op.tick now dt =>
    let a := runTick now dt w.players w.projectiles
    { w with players := a.players, projectiles := a.survivors }
  | Op.disconnect pid => { w with players := w.players.erase pid }

/-- A whole run of the event loop. -/
def applyOps (ops : List Op) (w : World) : World :=
  ops.foldl applyOp w

/-- One game-loop tick at the world level together with the accumulated
`removedProjectiles` reports of the run so far. -/
def tickStep (acc : World × List String) (step : ℚ × ℚ) : World × List String :=
  let a := runTick step.1 step.2 acc.1.players acc.1.projectiles
  ({ acc.1 with players := a.players, projectiles := a.survivors },
   acc.2 ++ a.removed)

/-- A run of consecutive game-loop ticks (each step is `(now, deltaTime)`),
returning the final world and the concatenation of every tick's
`removedProjectiles` list. -/
def runTicks (steps : List (ℚ × ℚ)) (w : World) : World × List String :=
  steps.foldl tickStep (w, [])

/-! ## Concrete states used to exercise the definitions -/

/-- A freshly connected player `x`. -/
def xp : Player := newPlayer "x" "X" 0 0 0

/-- A player `y` at one remaining hit of health. -/
def ypLow : Player := { newPlayer "y" "Y" 1 0 0 with health := 10 }

/-- A player `y` in the middle of a reload started at time 5000 with a
part-empty magazine. -/
def reloadingY : Player :=
  { newPlayer "y" "Y" 0 0 0 with magazine := 5, ammo := 50, reloading := true,
                                 reloadStartTime := 5000 }

/-- A dead player `y`. -/
def deadY : Player := { newPlayer "y" "Y" 0 0 0 with health := 0 }

/-- A `direction` payload whose `x` field is `NaN`. -/
def nanDir : RawVec3 :=
  { x := some JsVal.nan, y := some (JsVal.num 0), z := some (JsVal.num 0) }

/-- A fully finite numeric vector payload. -/
def finiteVec : RawVec3 :=
  { x := some (JsVal.num 1), y := some (JsVal.num 0), z := some (JsVal.num 0) }

/-- A finite rotation payload. -/
def finiteRot : RawRot :=
  { pitch := some (JsVal.num 0), yaw := some (JsVal.num 0) }

/-- A projectile owned by `x`, spawned at time 0, at rest at the origin. -/
def proj0 : Projectile :=
  { id := "p0", ownerId := "x", spawnTime := 0, x := 0, y := 0, z := 0,
    vx := 0, vy := 0, vz := 0 }

/-- A world holding only `proj0`. -/
def w0 : World := { players := [], projectiles := [proj0], projectileIdCounter := 0 }

/-! ## Resource invariants -/

/-- The resource bounds the specification states for every player. -/
def PlayerBounds (p : Player) : Prop :=
  0 ≤ p.health ∧ p.health ≤ 100 ∧ 0 ≤ p.magazine ∧ p.magazine ≤ 30 ∧
    0 ≤ p.ammo ∧ p.ammo ≤ 100

/-- Strengthened per-player invariant: the bounds together with the fact that
health is a multiple of the fixed projectile damage 10 (health starts at 100,
is reduced only by whole 10-damage hits or clamped to 0, and respawn resets
it to 100). -/
def PlayerInv (p : Player) : Prop :=
  PlayerBounds p ∧ (10 : Int) ∣ p.health

/-- World-level invariant: every stored player record satisfies
`PlayerInv`. -/
def WorldInv (w : World) : Prop := ∀ e ∈ w.players, PlayerInv e.2

/-! ## Association-list lemmas -/

theorem PMap.lookup_mem {m : PMap} {pid : String} {v : Player}
    (h : m.lookup pid = some v) : (pid, v) ∈ m := by
  induction m with
  | nil => simp [PMap.lookup] at h
  | cons e rest ih =>
    by_cases he : e.1 = pid
    · simp only [PMap.lookup, he, if_pos] at h
      injection h with h
      have he2 : e = (pid, v) := by
        calc e = (e.1, e.2) := rfl
          _ = (pid, v) := by rw [he, h]
      rw [← he2]
      exact List.mem_cons_self _ _
    · simp only [PMap.lookup, he, if_neg, not_false_iff] at h
      exact List.mem_cons_of_mem _ (ih h)

theorem PMap.lookup_update (m : PMap) (pid : String) (f : Player → Player)
    (q : String) :
    (m.update pid f).lookup q =
      if q = pid then (m.lookup pid).map f else m.lookup q := by
  induction m with
  | nil => by_cases hq : q = pid <;> simp [PMap.update, PMap.lookup, hq]
  | cons e rest ih =>
    simp only [PMap.update, List.map_cons] at ih ⊢
    by_cases hq : q = pid
    · subst hq
      by_cases he : e.1 = q
      · simp [PMap.lookup, he]
      · simp [PMap.lookup, he, ih]
    · have hqp : ¬ pid = q := fun h => hq h.symm
      by_cases he : e.1 = pid
      · have hne : ¬ e.1 = q := by rw [he]; exact hqp
        simp [PMap.lookup, he, hne, hq, hqp, ih]
      · by_cases heq : e.1 = q <;> simp [PMap.lookup, he, hq, hqp, heq, ih]

theorem PMap.inv_update {I : Player → Prop} {m : PMap} {pid : String}
    {f : Player → Player} (hm : ∀ e ∈ m, I e.2) (hf : ∀ v, I v → I (f v)) :
    ∀ e ∈ m.update pid f, I e.2 := by
  intro e he
  rcases List.mem_map.mp he with ⟨e0, he0, rfl⟩
  by_cases h : e0.1 = pid
  · simpa [h] using hf e0.2 (hm e0 he0)
  · simpa [h] using hm e0 he0

theorem PMap.inv_erase {I : Player → Prop} {m : PMap} {pid : String}
    (hm : ∀ e ∈ m, I e.2) : ∀ e ∈ m.erase pid, I e.2 := by
  intro e he
  exact hm e (List.mem_of_mem_filter he)

/-! ## findTarget lemmas -/

theorem findTarget_mem {p : Projectile} {ps : PMap} {e : String × Player}
    (h : findTarget p ps = some e) :
    e ∈ ps ∧ eligibleTarget p e.1 e.2 = true := by
  induction ps with
  | nil => simp [findTarget] at h
  | cons e0 rest ih =>
    by_cases h0 : eligibleTarget p e0.1 e0.2
    · simp [findTarget, h0] at h
      subst h
      exact ⟨List.mem_cons_self _ _, h0⟩
    · simp [findTarget, h0] at h
      rcases ih h with ⟨hmem, helig⟩
      exact ⟨List.mem_cons_of_mem _ hmem, helig⟩

theorem findTarget_isSome_iff (p : Projectile) (ps : PMap) :
    (findTarget p ps).isSome = true ↔
      ∃ e ∈ ps, eligibleTarget p e.1 e.2 = true := by
  induction ps with
  | nil => simp [findTarget]
  | cons e0 rest ih =>
    by_cases h0 : eligibleTarget p e0.1 e0.2 <;> simp [findTarget, h0, ih]

theorem findTarget_eq_some_iff (p : Projectile) (ps : PMap) (e : String × Player) :
    findTarget p ps = some e ↔
      ∃ l₁ l₂, ps = l₁ ++ e :: l₂ ∧ eligibleTarget p e.1 e.2 = true ∧
        ∀ e' ∈ l₁, eligibleTarget p e'.1 e'.2 = false := by
  induction ps with
  | nil =>
    simp only [findTarget]
    constructor
    · intro h
      exact absurd h (by simp)
    · rintro ⟨l₁, l₂, h, -, -⟩
      exact absurd h (by simp)
  | cons e0 rest ih =>
    by_cases h0 : eligibleTarget p e0.1 e0.2
    · simp only [findTarget, h0, if_pos]
      constructor
      · intro h
        injection h with h
        subst h
        exact ⟨[], rest, rfl, h0, by simp⟩
      · rintro ⟨l₁, l₂, hsplit, helig, hnone⟩
        cases l₁ with
        | nil =>
          injection hsplit with h1 h2
          rw [h1]
        | cons a l₁ =>
          injection hsplit with h1 h2
          have hfalse := hnone a (List.mem_cons_self _ _)
          rw [← h1] at hfalse
          rw [h0] at hfalse
          exact Bool.noConfusion hfalse
    · have h0f : eligibleTarget p e0.1 e0.2 = false := by
        revert h0
        cases eligibleTarget p e0.1 e0.2 <;> simp
      rw [show findTarget p (e0 :: rest) = findTarget p rest by
            simp [findTarget, h0f]]
      rw [ih]
      constructor
      · rintro ⟨l₁, l₂, hsplit, helig, hnone⟩
        refine ⟨e0 :: l₁, l₂, by simp [hsplit], helig, ?_⟩
        intro e' he'
        rcases List.mem_cons.mp he' with rfl | h
        · exact h0f
        · exact hnone e' h
      · rintro ⟨l₁, l₂, hsplit, helig, hnone⟩
        cases l₁ with
        | nil =>
          injection hsplit with h1 h2
          rw [← h1] at helig
          rw [h0f] at helig
          exact Bool.noConfusion helig
        | cons a l₁ =>
          injection hsplit with h1 h2
          refine ⟨l₁, l₂, h2, helig, ?_⟩
          intro e' he'
          exact hnone e' (List.mem_cons_of_mem _ he')

theorem playerInv_newPlayer (id name : String) (x z now : ℚ) :
    PlayerInv (newPlayer id name x z now) := by
  refine ⟨⟨?_, ?_, ?_, ?_, ?_, ?_⟩, ?_⟩ <;>
    norm_num [newPlayer, START_HEALTH, START_AMMO, START_MAGAZINE]

theorem playerInv_playerUpdateHandler {p : Player} (h : PlayerInv p)
    (pos : Option RawVec3) (rot : Option RawRot) :
    PlayerInv (playerUpdateHandler p pos rot) := by
  unfold playerUpdateHandler
  split
  · split
    · exact h
    · exact h
  · exact h

theorem playerInv_shootHandler {p : Player} (h : PlayerInv p) (pid : String)
    (c : Nat) (dir sp : Option RawVec3) (now : ℚ) :
    PlayerInv (shootHandler pid p c dir sp now).player := by
  obtain ⟨⟨h1, h2, h3, h4, h5, h6⟩, h7⟩ := h
  unfold shootHandler
  split
  · rename_i hguard
    simp only [Bool.and_eq_true, decide_eq_true_eq, Bool.not_eq_true'] at hguard
    have hmag : 0 < p.magazine := hguard.2
    split
    · refine ⟨⟨h1, h2, ?_, ?_, h5, h6⟩, h7⟩ <;> simp <;> omega
    · split
      · refine ⟨⟨h1, h2, ?_, ?_, h5, h6⟩, h7⟩ <;> simp <;> omega
      · refine ⟨⟨h1, h2, ?_, ?_, h5, h6⟩, h7⟩ <;> simp <;> omega
  · exact ⟨⟨h1, h2, h3, h4, h5, h6⟩, h7⟩

theorem playerInv_requestReloadHandler {p : Player} (h : PlayerInv p) (now : ℚ) :
    PlayerInv (requestReloadHandler p now) := by
  unfold requestReloadHandler
  split
  · exact ⟨h.1, h.2⟩
  · exact h

theorem playerInv_finishReload {p : Player} (h : PlayerInv p) :
    PlayerInv (finishReload p) := by
  obtain ⟨⟨h1, h2, h3, h4, h5, h6⟩, h7⟩ := h
  unfold finishReload
  refine ⟨⟨h1, h2, ?_, ?_, ?_, ?_⟩, h7⟩ <;>
    simp only [START_MAGAZINE] at * <;> omega

theorem playerInv_respawned {p : Player} (rx rz now : ℚ) :
    PlayerInv { p with x := rx, y := 1.6, z := rz, health := START_HEALTH,
                       magazine := START_MAGAZINE, ammo := START_AMMO,
                       reloading := false, lastUpdateTime := now } := by
  refine ⟨⟨?_, ?_, ?_, ?_, ?_, ?_⟩, ?_⟩ <;>
    norm_num [START_HEALTH, START_AMMO, START_MAGAZINE]

/-- Decomposition of the per-target hit test into its four conditions. -/
theorem eligibleTarget_iff (p : Projectile) (tid : String) (t : Player) :
    eligibleTarget p tid t = true ↔
      ¬ p.ownerId = tid ∧ 0 < t.health ∧
        |p.y - t.y| < PLAYER_HEIGHT / 2 + 0.2 ∧
        (p.x - t.x) ^ 2 + (p.z - t.z) ^ 2 < PLAYER_HITBOX_RADIUS ^ 2 := by
  simp [eligibleTarget, and_assoc]

theorem playerInv_processHit {ps : PMap} {p : Projectile} {tid : String}
    {target : Player} (hps : ∀ e ∈ ps, PlayerInv e.2) (ht : PlayerInv target) :
    ∀ e ∈ (processHit ps p tid target).players, PlayerInv e.2 := by
  obtain ⟨⟨h1, h2, h3, h4, h5, h6⟩, h7⟩ := ht
  unfold processHit
  dsimp only
  split
  · rename_i hdead
    have ht2 : PlayerInv ({ target with
                            health := 0,
                            deaths := target.deaths + 1,
                            reloading := false } : Player) :=
      ⟨⟨by norm_num, by norm_num, h3, h4, h5, h6⟩, by norm_num⟩
    split
    · split
      · exact PMap.inv_update hps (fun v _ => ht2)
      · dsimp only
        refine PMap.inv_update (PMap.inv_update hps (fun v _ => ht2)) ?_
        intro v hv
        exact ⟨⟨hv.1.1, hv.1.2.1, hv.1.2.2.1, hv.1.2.2.2.1, hv.1.2.2.2.2.1,
          hv.1.2.2.2.2.2⟩, hv.2⟩
    · exact PMap.inv_update hps (fun v _ => ht2)
  · rename_i hlive
    have ht1 : PlayerInv ({ target with
                            health := target.health - PROJECTILE_DAMAGE } : Player) := by
      simp only [PROJECTILE_DAMAGE] at hlive
      refine ⟨⟨?_, ?_, h3, h4, h5, h6⟩, ?_⟩ <;>
        simp only [PROJECTILE_DAMAGE] <;> omega
    exact PMap.inv_update hps (fun v _ => ht1)

theorem playerInv_stepProj {now dt : ℚ} {acc : TickAcc} {q : Projectile}
    (h : ∀ e ∈ acc.players, PlayerInv e.2) :
    ∀ e ∈ (stepProj now dt acc q).players, PlayerInv e.2 := by
  unfold stepProj
  dsimp only
  split
  · exact h
  · split
    · exact h
    · rename_i tgt heq
      have hmem := findTarget_mem heq
      exact playerInv_processHit h (h _ hmem.1)

theorem playerInv_foldTick (now dt : ℚ) (projs : List Projectile) :
    ∀ acc : TickAcc, (∀ e ∈ acc.players, PlayerInv e.2) →
      ∀ e ∈ (projs.foldl (stepProj now dt) acc).players, PlayerInv e.2 := by
  induction projs with
  | nil => exact fun acc h => h
  | cons q rest ih =>
    intro acc h
    exact ih _ (playerInv_stepProj h)

theorem playerInv_runTick {now dt : ℚ} {ps : PMap} {projs : List Projectile}
    (h : ∀ e ∈ ps, PlayerInv e.2) :
    ∀ e ∈ (runTick now dt ps projs).players, PlayerInv e.2 :=
  playerInv_foldTick now dt projs _ h

theorem playerInv_lastUpdate {p : Player} (h : PlayerInv p) (now : ℚ) :
    PlayerInv { p with lastUpdateTime := now } := h

theorem handleMessage_players_inv {w : World} (h : ∀ e ∈ w.players, PlayerInv e.2)
    (pid : String) (msg : ClientMsg) (now : ℚ) :
    ∀ e ∈ (handleMessage w pid msg now).1.players, PlayerInv e.2 := by
  unfold handleMessage
  split
  · exact h
  · rename_i player0 hlook
    have hp0 : PlayerInv player0 := h _ (PMap.lookup_mem hlook)
    have hp : PlayerInv { player0 with lastUpdateTime := now } := hp0
    dsimp only
    split
    · exact PMap.inv_update h (fun v _ => hp)
    · split
      · exact PMap.inv_update h
          (fun v _ => playerInv_playerUpdateHandler hp _ _)
      · exact PMap.inv_update h (fun v _ => playerInv_shootHandler hp _ _ _ _ _)
      · exact PMap.inv_update h
          (fun v _ => playerInv_requestReloadHandler hp _)

theorem reloadComplete_players_inv {ps : PMap} {pid : String}
    (h : ∀ e ∈ ps, PlayerInv e.2) :
    ∀ e ∈ (reloadComplete ps pid).1, PlayerInv e.2 := by
  unfold reloadComplete
  split
  · exact h
  · rename_i cp hlook
    have hcp : PlayerInv cp := h _ (PMap.lookup_mem hlook)
    split
    · dsimp only
      exact PMap.inv_update h (fun v _ => playerInv_finishReload hcp)
    · exact h

theorem respawnPlayer_players_inv {ps : PMap} {pid : String} {rx rz now : ℚ}
    (h : ∀ e ∈ ps, PlayerInv e.2) :
    ∀ e ∈ (respawnPlayer ps pid rx rz now).1, PlayerInv e.2 := by
  unfold respawnPlayer
  split
  · exact h
  · rename_i player hlook
    split
    · dsimp only
      exact PMap.inv_update h (fun v _ => playerInv_respawned rx rz now)
    · exact h

theorem worldInv_applyOp {w : World} (h : WorldInv w) (op : Op) :
    WorldInv (applyOp w op) := by
  have h' : ∀ e ∈ w.players, PlayerInv e.2 := h
  cases op with
  | join pid name x z now =>
    intro e he
    replace he : e ∈ w.players ++ [(pid, newPlayer pid name x z now)] := he
    rcases List.mem_append.mp he with hmem | hmem
    · exact h' e hmem
    · rcases List.mem_singleton.mp hmem with rfl
      exact playerInv_newPlayer pid name x z now
  | message pid msg now =>
    intro e he
    exact handleMessage_players_inv h' pid msg now e he
  | reloadFire pid =>
    intro e he
    exact reloadComplete_players_inv h' e he
  | respawnFire pid rx rz now =>
    intro e he
    exact respawnPlayer_players_inv h' e he
  | tick now dt =>
    intro e he
    exact playerInv_runTick h' e he
  | disconnect pid =>
    intro e he
    exact PMap.inv_erase h' e he

/-! ## Hit-event lemmas -/

theorem processHit_hit (ps : PMap) (p : Projectile) (tid : String)
    (target : Player) :
    (processHit ps p tid target).hit =
      { targetId := tid, newHealth := target.health - PROJECTILE_DAMAGE,
        attackerId := p.ownerId,
        attackerName := match ps.lookup p.ownerId with
          | some a => a.name
          | none => "Unknown" } := by
  unfold processHit
  dsimp only
  split
  · split <;> rfl
  · rfl

theorem hit_newHealth_nonneg {target : Player} (ht : PlayerInv target)
    (hpos : 0 < target.health) (ps : PMap) (p : Projectile) (tid : String) :
    0 ≤ (processHit ps p tid target).hit.newHealth := by
  rw [processHit_hit]
  obtain ⟨⟨h1, h2, -, -, -, -⟩, h7⟩ := ht
  simp only [PROJECTILE_DAMAGE]
  omega

theorem hits_nonneg_stepProj {now dt : ℚ} {acc : TickAcc} {q : Projectile}
    (hinv : ∀ e ∈ acc.players, PlayerInv e.2)
    (hacc : ∀ ev ∈ acc.hits, 0 ≤ ev.newHealth) :
    ∀ ev ∈ (stepProj now dt acc q).hits, 0 ≤ ev.newHealth := by
  unfold stepProj
  dsimp only
  split
  · exact hacc
  · split
    · exact hacc
    · rename_i tgt heq
      have hmem := findTarget_mem heq
      have helig := (eligibleTarget_iff _ _ _).mp hmem.2
      intro ev hev
      rcases List.mem_append.mp hev with hmem2 | hmem2
      · exact hacc ev hmem2
      · rcases List.mem_singleton.mp hmem2 with rfl
        exact hit_newHealth_nonneg (hinv _ hmem.1) helig.2.1 _ _ _

theorem hits_nonneg_foldTick (now dt : ℚ) (projs : List Projectile) :
    ∀ acc : TickAcc, (∀ e ∈ acc.players, PlayerInv e.2) →
      (∀ ev ∈ acc.hits, 0 ≤ ev.newHealth) →
      ∀ ev ∈ (projs.foldl (stepProj now dt) acc).hits, 0 ≤ ev.newHealth := by
  induction projs with
  | nil => exact fun acc _ hacc => hacc
  | cons q rest ih =>
    intro acc hinv hacc
    exact ih _ (playerInv_stepProj hinv) (hits_nonneg_stepProj hinv hacc)

/-! ## Projectile lifecycle lemmas -/

theorem moveProj_id (dt : ℚ) (q : Projectile) : (moveProj dt q).id = q.id := rfl

theorem moveProj_spawnTime (dt : ℚ) (q : Projectile) :
    (moveProj dt q).spawnTime = q.spawnTime := rfl

/-- Per-projectile trichotomy of one filter iteration: expire, hit the first
eligible target, or survive — each with exactly the accumulator change the
code performs. -/
theorem stepProj_cases (now dt : ℚ) (acc : TickAcc) (q : Projectile) :
    (projExpired now (moveProj dt q) = true ∧
      stepProj now dt acc q = { acc with removed := acc.removed ++ [q.id] })
    ∨ (projExpired now (moveProj dt q) = false ∧
        ∃ tid target,
          findTarget (moveProj dt q) acc.players = some (tid, target) ∧
          stepProj now dt acc q =
            { acc with
              players := (processHit acc.players (moveProj dt q) tid target).players,
              hits := acc.hits ++
                [(processHit acc.players (moveProj dt q) tid target).hit],
              deaths := acc.deaths ++
                ((processHit acc.players (moveProj dt q) tid target).death).toList,
              removed := acc.removed ++ [q.id],
              respawnsScheduled := acc.respawnsScheduled ++
                (processHit acc.players (moveProj dt q) tid target).respawnsScheduled })
    ∨ (projExpired now (moveProj dt q) = false ∧
        findTarget (moveProj dt q) acc.players = none ∧
        stepProj now dt acc q =
          { acc with survivors := acc.survivors ++ [moveProj dt q] }) := by
  by_cases hexp : projExpired now (moveProj dt q) = true
  · left
    refine ⟨hexp, ?_⟩
    unfold stepProj
    dsimp only
    rw [if_pos hexp]
    rfl
  · have hexp' : projExpired now (moveProj dt q) = false :=
      Bool.eq_false_iff.mpr hexp
    cases hft : findTarget (moveProj dt q) acc.players with
    | none =>
      right; right
      refine ⟨hexp', rfl, ?_⟩
      unfold stepProj
      dsimp only
      rw [if_neg hexp, hft]
    | some e =>
      right; left
      refine ⟨hexp', e.1, e.2, rfl, ?_⟩
      unfold stepProj
      dsimp only
      rw [if_neg hexp, hft]
      rfl

/-- Conservation of projectile ids through one tick's filter fold: every
input projectile ends up either in the `removedProjectiles` report or among
the survivors, and nowhere else. -/
theorem count_foldTick (now dt : ℚ) (projs : List Projectile) :
    ∀ (acc : TickAcc) (x : String),
      ((projs.foldl (stepProj now dt) acc).removed).count x +
        (((projs.foldl (stepProj now dt) acc).survivors.map Projectile.id)).count x =
      (acc.removed).count x + ((acc.survivors.map Projectile.id)).count x +
        ((projs.map Projectile.id)).count x := by
  induction projs with
  | nil => intro acc x; simp
  | cons q rest ih =>
    intro acc x
    rw [List.foldl_cons]
    rw [ih (stepProj now dt acc q) x]
    rcases stepProj_cases now dt acc q with ⟨-, hstep⟩ | ⟨-, tid, target, -, hstep⟩ |
      ⟨-, -, hstep⟩
    · rw [hstep]
      dsimp only
      rw [List.count_append, List.count_singleton, List.map_cons,
        List.count_cons]
      omega
    · rw [hstep]
      dsimp only
      rw [List.count_append, List.count_singleton, List.map_cons,
        List.count_cons]
      omega
    · rw [hstep]
      dsimp only
      rw [List.map_append, List.count_append, List.map_cons, List.map_nil,
        List.count_singleton, moveProj_id, List.map_cons, List.count_cons]
      omega

/-- Every survivor of one tick is the integrated image of an input projectile
that did not satisfy the expiry test. -/
theorem survivors_foldTick (now dt : ℚ) (projs : List Projectile) :
    ∀ (acc : TickAcc) (q' : Projectile),
      q' ∈ (projs.foldl (stepProj now dt) acc).survivors →
      q' ∈ acc.survivors ∨
        ∃ q ∈ projs, q' = moveProj dt q ∧ projExpired now q' = false := by
  induction projs with
  | nil => exact fun acc q' h => Or.inl h
  | cons q rest ih =>
    intro acc q' h
    rw [List.foldl_cons] at h
    rcases ih (stepProj now dt acc q) q' h with hacc | ⟨q0, hq0, rfl, hexp⟩
    · rcases stepProj_cases now dt acc q with ⟨-, hstep⟩ | ⟨-, tid, target, -, hstep⟩ |
        ⟨hexp, -, hstep⟩ <;> rw [hstep] at hacc
      · exact Or.inl hacc
      · exact Or.inl hacc
      · rcases List.mem_append.mp hacc with h2 | h2
        · exact Or.inl h2
        · rcases List.mem_singleton.mp h2 with rfl
          exact Or.inr ⟨q, List.mem_cons_self _ _, rfl, hexp⟩
    · exact Or.inr ⟨q0, List.mem_cons_of_mem _ hq0, rfl, hexp⟩

theorem runTick_count (now dt : ℚ) (ps : PMap) (projs : List Projectile)
    (x : String) :
    ((runTick now dt ps projs).removed).count x +
      (((runTick now dt ps projs).survivors.map Projectile.id)).count x =
      ((projs.map Projectile.id)).count x := by
  have h := count_foldTick now dt projs
    { players := ps, hits := [], deaths := [], removed := [], survivors := [],
      respawnsScheduled := [] } x
  simpa [runTick] using h

theorem runTick_survivors {now dt : ℚ} {ps : PMap} {projs : List Projectile}
    {q' : Projectile} (h : q' ∈ (runTick now dt ps projs).survivors) :
    ∃ q ∈ projs, q' = moveProj dt q ∧ projExpired now q' = false := by
  have h2 := survivors_foldTick now dt projs
    { players := ps, hits := [], deaths := [], removed := [], survivors := [],
      respawnsScheduled := [] } q' h
  rcases h2 with h2 | h2
  · simp at h2
  · exact h2

/-- A projectile past its lifetime at tick time `now` never survives the
tick, whatever its position. -/
theorem runTick_expired_gone {now dt : ℚ} {ps : PMap} {projs : List Projectile}
    {x : String} {sp : ℚ}
    (hsp : ∀ q ∈ projs, q.id = x → q.spawnTime = sp)
    (hlate : now - sp > PROJECTILE_LIFETIME) :
    (((runTick now dt ps projs).survivors.map Projectile.id)).count x = 0 := by
  rw [List.count_eq_zero]
  intro hmem
  rcases List.mem_map.mp hmem with ⟨q', hq', hid⟩
  rcases runTick_survivors hq' with ⟨q, hq, rfl, hexp⟩
  have hqid : q.id = x := by rw [← hid]; rfl
  have hspq : q.spawnTime = sp := hsp q hq hqid
  have : projExpired now (moveProj dt q) = true := by
    unfold projExpired
    rw [moveProj_spawnTime, hspq]
    simp [hlate]
  rw [this] at hexp
  exact Bool.noConfusion hexp

theorem runTicks_count (steps : List (ℚ × ℚ)) :
    ∀ (w : World) (r : List String) (x : String),
      ((steps.foldl tickStep (w, r)).2).count x +
        (((steps.foldl tickStep (w, r)).1.projectiles.map Projectile.id)).count x =
      r.count x + ((w.projectiles.map Projectile.id)).count x := by
  induction steps with
  | nil => intro w r x; simp
  | cons st rest ih =>
    intro w r x
    rw [List.foldl_cons]
    have hstep : tickStep (w, r) st =
        ({ w with players := (runTick st.1 st.2 w.players w.projectiles).players,
                  projectiles := (runTick st.1 st.2 w.players w.projectiles).survivors },
         r ++ (runTick st.1 st.2 w.players w.projectiles).removed) := rfl
    rw [hstep, ih]
    dsimp only
    rw [List.count_append]
    have h2 := runTick_count st.1 st.2 w.players w.projectiles x
    omega

/-- Once a projectile id is absent from the projectile list it never
reappears in later ticks. -/
theorem runTicks_zero (steps : List (ℚ × ℚ)) :
    ∀ (w : World) (r : List String) (x : String),
      ((w.projectiles.map Projectile.id)).count x = 0 →
      (((steps.foldl tickStep (w, r)).1.projectiles.map Projectile.id)).count x = 0 := by
  induction steps with
  | nil => exact fun w r x h => h
  | cons st rest ih =>
    intro w r x h
    rw [List.foldl_cons]
    apply ih
    have h2 := runTick_count st.1 st.2 w.players w.projectiles x
    dsimp only [tickStep]
    omega

/-- Spawn timestamps are tracked along survivors. -/
theorem runTicks_spawn (steps : List (ℚ × ℚ)) :
    ∀ (w : World) (r : List String) (x : String) (sp : ℚ),
      (∀ q ∈ w.projectiles, q.id = x → q.spawnTime = sp) →
      ∀ q ∈ (steps.foldl tickStep (w, r)).1.projectiles, q.id = x →
        q.spawnTime = sp := by
  induction steps with
  | nil => exact fun w r x sp h => h
  | cons st rest ih =>
    intro w r x sp h
    rw [List.foldl_cons]
    apply ih
    intro q' hq' hid
    have hq'2 : q' ∈ (runTick st.1 st.2 w.players w.projectiles).survivors := hq'
    rcases runTick_survivors hq'2 with ⟨q, hq, rfl, -⟩
    rw [moveProj_spawnTime]
    exact h q hq (by rw [← hid]; rfl)

/-- After any tick whose wall-clock reading is beyond the projectile's
lifetime, the projectile is gone from the world for good. -/
theorem runTicks_gone (steps : List (ℚ × ℚ)) :
    ∀ (w : World) (r : List String) (x : String) (sp : ℚ),
      (∀ q ∈ w.projectiles, q.id = x → q.spawnTime = sp) →
      (∃ st ∈ steps, st.1 - sp > PROJECTILE_LIFETIME) →
      (((steps.foldl tickStep (w, r)).1.projectiles.map Projectile.id)).count x = 0 := by
  induction steps with
  | nil =>
    intro w r x sp _ hex
    simp at hex
  | cons st rest ih =>
    intro w r x sp hsp hex
    rw [List.foldl_cons]
    by_cases hlate : st.1 - sp > PROJECTILE_LIFETIME
    · apply runTicks_zero
      exact runTick_expired_gone hsp hlate
    · rcases hex with ⟨st', hst', hlate'⟩
      rcases List.mem_cons.mp hst' with rfl | hst'
      · exact absurd hlate' hlate
      · apply ih
        · intro q' hq' hid
          have hq'2 : q' ∈ (runTick st.1 st.2 w.players w.projectiles).survivors := hq'
          rcases runTick_survivors hq'2 with ⟨q, hq, rfl, -⟩
          rw [moveProj_spawnTime]
          exact hsp q hq (by rw [← hid]; rfl)
        · exact ⟨st', hst', hlate'⟩

theorem processHit_lookup_target {ps : PMap} {p : Projectile} {tid : String}
    {target : Player} (hlook : ps.lookup tid = some target)
    (hown : ¬ tid = p.ownerId) :
    (processHit ps p tid target).players.lookup tid =
      some (if target.health - PROJECTILE_DAMAGE ≤ 0 then
              { target with health := 0, deaths := target.deaths + 1,
                            reloading := false }
            else { target with health := target.health - PROJECTILE_DAMAGE }) := by
  unfold processHit
  dsimp only
  split
  · dsimp only
    split
    · rename_i a ha
      split
      · rw [PMap.lookup_update, if_pos rfl, hlook]
        rfl
      · rw [PMap.lookup_update, if_neg hown, PMap.lookup_update, if_pos rfl,
          hlook]
        rfl
    · rw [PMap.lookup_update, if_pos rfl, hlook]
      rfl
  · dsimp only
    rw [PMap.lookup_update, if_pos rfl, hlook]
    rfl

theorem processHit_lookup_attacker {ps : PMap} {p : Projectile} {tid : String}
    {target : Player} {a : Player}
    (hdead : target.health - PROJECTILE_DAMAGE ≤ 0)
    (hlooka : ps.lookup p.ownerId = some a) (haid : ¬ a.id = tid)
    (hown : ¬ p.ownerId = tid) :
    (processHit ps p tid target).players.lookup p.ownerId =
      some { a with kills := a.kills + 1 } := by
  unfold processHit
  dsimp only
  rw [if_pos hdead, hlooka]
  dsimp only
  rw [if_neg haid]
  rw [PMap.lookup_update, if_pos rfl, PMap.lookup_update, if_neg hown, hlooka]
  rfl

theorem processHit_lookup_other {ps : PMap} {p : Projectile} {tid : String}
    {target : Player} {q : String} (hq1 : ¬ q = tid) (hq2 : ¬ q = p.ownerId) :
    (processHit ps p tid target).players.lookup q = ps.lookup q := by
  unfold processHit
  dsimp only
  split
  · split
    · split
      · rw [PMap.lookup_update, if_neg hq1]
      · rw [PMap.lookup_update, if_neg hq2, PMap.lookup_update, if_neg hq1]
    · rw [PMap.lookup_update, if_neg hq1]
  · rw [PMap.lookup_update, if_neg hq1]

theorem processHit_death_lethal {ps : PMap} {p : Projectile} {tid : String}
    {target : Player} (hdead : target.health - PROJECTILE_DAMAGE ≤ 0) :
    (processHit ps p tid target).death =
      some { victimId := tid, victimName := target.name, attackerId := p.ownerId,
             attackerName := match ps.lookup p.ownerId with
               | some a => a.name
               | none => "Unknown" } ∧
    (processHit ps p tid target).respawnsScheduled = [tid] := by
  unfold processHit
  dsimp only
  rw [if_pos hdead]
  exact ⟨rfl, rfl⟩

theorem processHit_nonlethal {ps : PMap} {p : Projectile} {tid : String}
    {target : Player} (hlive : ¬ target.health - PROJECTILE_DAMAGE ≤ 0) :
    (processHit ps p tid target).death = none ∧
    (processHit ps p tid target).respawnsScheduled = [] := by
  unfold processHit
  dsimp only
  rw [if_neg hlive]
  exact ⟨rfl, rfl⟩

/-! ## Reload, respawn and shoot characterizations -/

theorem finishReload_spec (p : Player) :
    (finishReload p).magazine =
        p.magazine + min (START_MAGAZINE - p.magazine) p.ammo ∧
      (finishReload p).ammo =
        p.ammo - min (START_MAGAZINE - p.magazine) p.ammo ∧
      (finishReload p).reloading = false ∧
      (finishReload p).magazine + (finishReload p).ammo =
        p.magazine + p.ammo := by
  refine ⟨rfl, rfl, rfl, ?_⟩
  unfold finishReload
  dsimp only
  omega

theorem reloadComplete_absent {ps : PMap} {pid : String}
    (h : ps.lookup pid = none) : reloadComplete ps pid = (ps, []) := by
  unfold reloadComplete
  rw [h]

theorem reloadComplete_notReloading {ps : PMap} {pid : String} {p : Player}
    (h : ps.lookup pid = some p) (hr : p.reloading = false) :
    reloadComplete ps pid = (ps, []) := by
  unfold reloadComplete
  rw [h]
  dsimp only
  rw [hr]
  simp

theorem reloadComplete_applies {ps : PMap} {pid : String} {p : Player}
    (h : ps.lookup pid = some p) (hr : p.reloading = true) :
    (reloadComplete ps pid).1 = ps.update pid (fun _ => finishReload p) ∧
    (reloadComplete ps pid).1.lookup pid = some (finishReload p) ∧
    (reloadComplete ps pid).2 =
      [(Delivery.toSender,
        OutMsg.ammoUpdate (finishReload p).magazine (finishReload p).ammo)] := by
  unfold reloadComplete
  rw [h]
  dsimp only
  rw [hr]
  simp only [Bool.true_and, decide_eq_true_eq]
  rw [if_pos trivial]
  refine ⟨rfl, ?_, rfl⟩
  rw [PMap.lookup_update, if_pos rfl, h]
  rfl

theorem respawnPlayer_absent {ps : PMap} {pid : String} {rx rz now : ℚ}
    (h : ps.lookup pid = none) : respawnPlayer ps pid rx rz now = (ps, []) := by
  unfold respawnPlayer
  rw [h]

theorem respawnPlayer_alive {ps : PMap} {pid : String} {rx rz now : ℚ}
    {p : Player} (h : ps.lookup pid = some p) (halive : ¬ p.health ≤ 0) :
    respawnPlayer ps pid rx rz now = (ps, []) := by
  unfold respawnPlayer
  rw [h]
  dsimp only
  rw [if_neg halive]

theorem respawnPlayer_applies {ps : PMap} {pid : String} {rx rz now : ℚ}
    {p : Player} (h : ps.lookup pid = some p) (hdead : p.health ≤ 0) :
    (respawnPlayer ps pid rx rz now).1.lookup pid =
      some { p with x := rx, y := 1.6, z := rz, health := START_HEALTH,
                    magazine := START_MAGAZINE, ammo := START_AMMO,
                    reloading := false, lastUpdateTime := now } ∧
    (∀ q, ¬ q = pid →
      (respawnPlayer ps pid rx rz now).1.lookup q = ps.lookup q) := by
  unfold respawnPlayer
  rw [h]
  dsimp only
  rw [if_pos hdead]
  constructor
  · rw [PMap.lookup_update, if_pos rfl, h]
    rfl
  · intro q hq
    rw [PMap.lookup_update, if_neg hq]

theorem shootHandler_reject {pid : String} {p : Player} {c : Nat}
    {dir sp : Option RawVec3} {now : ℚ}
    (h : ¬ (0 < p.health ∧ p.reloading = false ∧ 0 < p.magazine)) :
    shootHandler pid p c dir sp now =
      { player := p, counter := c, newProjectile := none, events := [] } := by
  unfold shootHandler
  split
  · rename_i hguard
    simp only [Bool.and_eq_true, decide_eq_true_eq, Bool.not_eq_true'] at hguard
    exact absurd ⟨hguard.1.1, hguard.1.2, hguard.2⟩ h
  · rfl

theorem shootHandler_invalid {pid : String} {p : Player} {c : Nat}
    {dir sp : Option RawVec3} {now : ℚ} (hh : 0 < p.health)
    (hr : p.reloading = false) (hm : 0 < p.magazine)
    (hbad : (isValidPosition sp && isValidDirection dir) = false) :
    shootHandler pid p c dir sp now =
      { player := { p with magazine := p.magazine - 1 }, counter := c + 1,
        newProjectile := none, events := [] } := by
  unfold shootHandler
  rw [if_pos (by simp [hh, hr, hm])]
  dsimp only
  rw [if_pos (by
    rcases Bool.and_eq_false_iff.mp hbad with hb | hb <;> simp [hb])]

theorem shootHandler_valid {pid : String} {p : Player} {c : Nat}
    {dv sv : RawVec3} {now : ℚ} (hh : 0 < p.health) (hr : p.reloading = false)
    (hm : 0 < p.magazine) (hvp : isValidPosition (some sv) = true)
    (hvd : isValidDirection (some dv) = true) :
    shootHandler pid p c (some dv) (some sv) now =
      { player := { p with magazine := p.magazine - 1 }, counter := c + 1,
        newProjectile := some
          { id := "proj_" ++ toString c, ownerId := pid, spawnTime := now,
            x := numVal sv.x, y := numVal sv.y, z := numVal sv.z,
            vx := numVal dv.x * PROJECTILE_SPEED,
            vy := numVal dv.y * PROJECTILE_SPEED,
            vz := numVal dv.z * PROJECTILE_SPEED },
        events := [(Delivery.broadcast, OutMsg.projectileCreated
            { id := "proj_" ++ toString c, ownerId := pid, spawnTime := now,
              x := numVal sv.x, y := numVal sv.y, z := numVal sv.z,
              vx := numVal dv.x * PROJECTILE_SPEED,
              vy := numVal dv.y * PROJECTILE_SPEED,
              vz := numVal dv.z * PROJECTILE_SPEED }),
          (Delivery.toSender,
            OutMsg.ammoUpdate (p.magazine - 1) p.ammo)] } := by
  unfold shootHandler
  rw [if_pos (by simp [hh, hr, hm])]
  dsimp only
  rw [if_neg (by simp [hvp, hvd])]

theorem playerUpdateHandler_invalid {p : Player} {pos : Option RawVec3}
    {rot : Option RawRot}
    (h : (isValidPosition pos && isValidRotation rot) = false) :
    playerUpdateHandler p pos rot = p := by
  unfold playerUpdateHandler
  rw [if_neg (by simp [h])]

theorem handleMessage_keeps_players (w : World) (pid : String) (msg : ClientMsg)
    (now : ℚ) (q : String) :
    ((handleMessage w pid msg now).1.players.lookup q).isSome =
      (w.players.lookup q).isSome := by
  unfold handleMessage
  split
  · rfl
  · rename_i player0 hlook
    dsimp only
    split
    · dsimp only
      rw [PMap.lookup_update]
      by_cases hq : q = pid
      · rw [if_pos hq, hq, hlook]
        rfl
      · rw [if_neg hq]
    · split <;>
        dsimp only <;>
        rw [PMap.lookup_update] <;>
        by_cases hq : q = pid <;>
        simp only [hq, if_pos, if_neg, hlook] <;>
        rfl

theorem worldInv_applyOps (ops : List Op) :
    ∀ {w : World}, WorldInv w → WorldInv (applyOps ops w) := by
  induction ops with
  | nil => exact fun h => h
  | cons op rest ih =>
    intro w h
    exact ih (worldInv_applyOp h op)

theorem worldInv_init : WorldInv World.init := by
  intro e he
  simp [World.init] at he

/-! ## The claims -/

/-- C1: for every player record in the players map, after any sequence of
operations (command handlers, tick, and timer callbacks) starting from the
empty server state, `0 ≤ health ≤ 100`, `0 ≤ magazine ≤ 30` and
`0 ≤ ammo ≤ 100`: no hit drives stored health below 0, no reload raises the
magazine above 30 or ammo below 0, and no operation raises health above 100
or ammo above 100. -/
theorem C1_resource_bounds (ops : List Op) :
    ∀ e ∈ (applyOps ops World.init).players,
      0 ≤ e.2.health ∧ e.2.health ≤ 100 ∧ 0 ≤ e.2.magazine ∧
        e.2.magazine ≤ 30 ∧ 0 ≤ e.2.ammo ∧ e.2.ammo ≤ 100 :=
  fun e he => (worldInv_applyOps ops worldInv_init e he).1

theorem C1_resource_bounds_witness :
    ("a", newPlayer "a" "A" 0 0 0) ∈
        (applyOps [Op.join "a" "A" 0 0 0] World.init).players ∧
      (0 ≤ (newPlayer "a" "A" 0 0 0).health ∧
        (newPlayer "a" "A" 0 0 0).health ≤ 100 ∧
        0 ≤ (newPlayer "a" "A" 0 0 0).magazine ∧
        (newPlayer "a" "A" 0 0 0).magazine ≤ 30 ∧
        0 ≤ (newPlayer "a" "A" 0 0 0).ammo ∧
        (newPlayer "a" "A" 0 0 0).ammo ≤ 100) :=
  ⟨by simp [applyOps, applyOp, World.init],
   C1_resource_bounds [Op.join "a" "A" 0 0 0] ("a", newPlayer "a" "A" 0 0 0)
     (by simp [applyOps, applyOp, World.init])⟩

/-- C2: in the tick's hit scan, a projectile registers a hit against a player
record precisely when that player is not the projectile's owner, has health
above zero, the vertical distance between projectile and the target's
(eye-level) y is under half the player height plus the 0.2 tolerance, and the
squared planar distance is under the square of the hitbox radius; a live,
non-expired projectile produces a hit event in the tick exactly when some
stored player passes this test; and the hitbox radius 0.6 is strictly larger
than the player-player physical collision radius 0.4. -/
theorem C2_hit_test :
    (∀ (p : Projectile) (tid : String) (t : Player),
        eligibleTarget p tid t = true ↔
          ¬ p.ownerId = tid ∧ 0 < t.health ∧
            |p.y - t.y| < PLAYER_HEIGHT / 2 + 0.2 ∧
            (p.x - t.x) ^ 2 + (p.z - t.z) ^ 2 < PLAYER_HITBOX_RADIUS ^ 2) ∧
    (∀ (now dt : ℚ) (acc : TickAcc) (q : Projectile),
        projExpired now (moveProj dt q) = false →
          ((stepProj now dt acc q).hits.length = acc.hits.length + 1 ↔
            ∃ e ∈ acc.players, eligibleTarget (moveProj dt q) e.1 e.2 = true)) ∧
    PLAYER_HEIGHT = 1.8 ∧ PLAYER_HITBOX_RADIUS = 0.6 ∧ PLAYER_RADIUS = 0.4 ∧
    PLAYER_RADIUS < PLAYER_HITBOX_RADIUS := by
  refine ⟨eligibleTarget_iff, ?_, rfl, rfl, rfl, ?_⟩
  · intro now dt acc q hexp
    rcases stepProj_cases now dt acc q with ⟨hx, -⟩ | ⟨-, tid, target, hft, hstep⟩ |
      ⟨-, hft, hstep⟩
    · rw [hx] at hexp
      exact Bool.noConfusion hexp
    · rw [hstep]
      dsimp only
      rw [List.length_append]
      have hmem := findTarget_mem hft
      exact iff_of_true rfl ⟨(tid, target), hmem.1, hmem.2⟩
    · rw [hstep]
      dsimp only
      constructor
      · intro hlen
        omega
      · intro hex
        have h2 := (findTarget_isSome_iff (moveProj dt q) acc.players).mpr hex
        rw [hft] at h2
        exact Bool.noConfusion h2
  · rw [show PLAYER_RADIUS = 0.4 from rfl,
      show PLAYER_HITBOX_RADIUS = 0.6 from rfl]
    norm_num

theorem C2_hit_test_witness :
    projExpired 100 (moveProj 0 proj0) = false ∧
      ((stepProj 100 0
            { players := [("y", ypLow)], hits := [], deaths := [], removed := [],
              survivors := [], respawnsScheduled := [] } proj0).hits.length =
          ([] : List HitEvent).length + 1 ↔
        ∃ e ∈ ([("y", ypLow)] : PMap),
          eligibleTarget (moveProj 0 proj0) e.1 e.2 = true) :=
  ⟨by norm_num [projExpired, moveProj, proj0, PROJECTILE_LIFETIME],
   C2_hit_test.2.1 100 0
     { players := [("y", ypLow)], hits := [], deaths := [], removed := [],
       survivors := [], respawnsScheduled := [] } proj0
     (by norm_num [projExpired, moveProj, proj0, PROJECTILE_LIFETIME])⟩

/-- C4: when a respawn timer fires for a player who no longer exists, nothing
is mutated and nothing is sent; when the player exists but the health
re-check fails (health above 0), nothing happens either; otherwise health is
reset to 100, magazine to 30, ammo to 100, `reloading` cleared, a new
position assigned, the activity timestamp refreshed, and kill and death
counters left unchanged. -/
theorem C4_respawn (ps : PMap) (pid : String) (rx rz now : ℚ) :
    (ps.lookup pid = none → respawnPlayer ps pid rx rz now = (ps, [])) ∧
    (∀ p, ps.lookup pid = some p → 0 < p.health →
      respawnPlayer ps pid rx rz now = (ps, [])) ∧
    (∀ p, ps.lookup pid = some p → p.health ≤ 0 →
      ∃ p', (respawnPlayer ps pid rx rz now).1.lookup pid = some p' ∧
        p'.health = 100 ∧ p'.magazine = 30 ∧ p'.ammo = 100 ∧
        p'.reloading = false ∧ p'.x = rx ∧ p'.y = 1.6 ∧ p'.z = rz ∧
        p'.lastUpdateTime = now ∧ p'.kills = p.kills ∧
        p'.deaths = p.deaths ∧ p'.id = p.id ∧ p'.name = p.name) := by
  refine ⟨respawnPlayer_absent, ?_, ?_⟩
  · intro p h hp
    exact respawnPlayer_alive h (by omega)
  · intro p h hd
    exact ⟨_, (respawnPlayer_applies h hd).1,
      by simp [START_HEALTH, START_AMMO, START_MAGAZINE]⟩

theorem C4_respawn_witness :
    (PMap.lookup [("y", deadY)] "y" = some deadY ∧ deadY.health ≤ 0) ∧
      (∃ p', (respawnPlayer [("y", deadY)] "y" 2 3 9000).1.lookup "y" = some p' ∧
        p'.health = 100 ∧ p'.magazine = 30 ∧ p'.ammo = 100 ∧
        p'.reloading = false ∧ p'.x = 2 ∧ p'.y = 1.6 ∧ p'.z = 3 ∧
        p'.lastUpdateTime = 9000 ∧ p'.kills = deadY.kills ∧
        p'.deaths = deadY.deaths ∧ p'.id = deadY.id ∧ p'.name = deadY.name) :=
  ⟨⟨by simp [PMap.lookup], by decide⟩,
   (C4_respawn [("y", deadY)] "y" 2 3 9000).2.2 deadY (by simp [PMap.lookup])
     (by decide)⟩

/-- C5: a reload completion that applies its effect moves exactly
`min(30 - magazine, ammo)` rounds from reserve ammo into the magazine, clears
the reloading flag, and conserves `magazine + ammo`; in particular a player
with magazine 5 and ammo 50 ends with magazine 30 and ammo 25. -/
theorem C5_reload_conservation (ps : PMap) (pid : String) (p : Player)
    (hlook : ps.lookup pid = some p) (hrel : p.reloading = true) :
    (∃ p', (reloadComplete ps pid).1.lookup pid = some p' ∧
      p'.magazine = p.magazine + min (30 - p.magazine) p.ammo ∧
      p'.ammo = p.ammo - min (30 - p.magazine) p.ammo ∧
      p'.reloading = false ∧
      p'.magazine + p'.ammo = p.magazine + p.ammo) ∧
    (p.magazine = 5 → p.ammo = 50 →
      ∃ p', (reloadComplete ps pid).1.lookup pid = some p' ∧
        p'.magazine = 30 ∧ p'.ammo = 25) := by
  have h := reloadComplete_applies hlook hrel
  have hf := finishReload_spec p
  constructor
  · exact ⟨finishReload p, h.2.1, hf.1, hf.2.1, hf.2.2.1, hf.2.2.2⟩
  · intro h5 h50
    refine ⟨finishReload p, h.2.1, ?_, ?_⟩
    · rw [hf.1, h5, h50]
      simp only [START_MAGAZINE]
      omega
    · rw [hf.2.1, h5, h50]
      simp only [START_MAGAZINE]
      omega

theorem C5_reload_conservation_witness :
    (PMap.lookup [("y", reloadingY)] "y" = some reloadingY ∧
        reloadingY.reloading = true ∧ reloadingY.magazine = 5 ∧
        reloadingY.ammo = 50) ∧
      (∃ p', (reloadComplete [("y", reloadingY)] "y").1.lookup "y" = some p' ∧
        p'.magazine = 30 ∧ p'.ammo = 25) :=
  ⟨⟨by simp [PMap.lookup], by decide, by decide, by decide⟩,
   (C5_reload_conservation [("y", reloadingY)] "y" reloadingY
       (by simp [PMap.lookup]) (by decide)).2 (by decide) (by decide)⟩

/-- C7: a shoot command is rejected — no state change, no projectile, no
message — unless `health > 0 ∧ ¬reloading ∧ magazine > 0`; and a successful
shot by a player with magazine 30 and ammo 100 yields magazine 29, a
`projectile_created` broadcast to all clients, and an
`ammo_update{magazine:29, ammo:100}` sent to the shooter alone. -/
theorem C7_shoot (pid : String) (p : Player) (c : Nat)
    (dir sp : Option RawVec3) (dv sv : RawVec3) (now : ℚ) :
    (¬ (0 < p.health ∧ p.reloading = false ∧ 0 < p.magazine) →
      shootHandler pid p c dir sp now =
        { player := p, counter := c, newProjectile := none, events := [] }) ∧
    (0 < p.health → p.reloading = false → p.magazine = 30 → p.ammo = 100 →
      isValidPosition (some sv) = true → isValidDirection (some dv) = true →
      ∃ proj, shootHandler pid p c (some dv) (some sv) now =
        { player := { p with magazine := 29 }, counter := c + 1,
          newProjectile := some proj,
          events := [(Delivery.broadcast, OutMsg.projectileCreated proj),
                     (Delivery.toSender, OutMsg.ammoUpdate 29 100)] }) := by
  refine ⟨shootHandler_reject, ?_⟩
  intro hh hr hm ha hvp hvd
  refine ⟨{ id := "proj_" ++ toString c, ownerId := pid, spawnTime := now,
            x := numVal sv.x, y := numVal sv.y, z := numVal sv.z,
            vx := numVal dv.x * PROJECTILE_SPEED,
            vy := numVal dv.y * PROJECTILE_SPEED,
            vz := numVal dv.z * PROJECTILE_SPEED }, ?_⟩
  rw [shootHandler_valid hh hr (by omega) hvp hvd]
  rw [hm, ha]
  norm_num

theorem C7_shoot_witness :
    (0 < xp.health ∧ xp.reloading = false ∧ xp.magazine = 30 ∧ xp.ammo = 100 ∧
        isValidPosition (some finiteVec) = true ∧
        isValidDirection (some finiteVec) = true) ∧
      (∃ proj, shootHandler "x" xp 0 (some finiteVec) (some finiteVec) 7 =
        { player := { xp with magazine := 29 }, counter := 0 + 1,
          newProjectile := some proj,
          events := [(Delivery.broadcast, OutMsg.projectileCreated proj),
                     (Delivery.toSender, OutMsg.ammoUpdate 29 100)] }) :=
  ⟨⟨by decide, by decide, by decide, by decide, by decide, by decide⟩,
   (C7_shoot "x" xp 0 (some finiteVec) (some finiteVec) finiteVec finiteVec 7).2
     (by decide) (by decide) (by decide) (by decide) (by decide) (by decide)⟩

theorem processHit_lookup_noattacker {ps : PMap} {p : Projectile}
    {tid : String} {target : Player} (hnone : ps.lookup p.ownerId = none)
    {q : String} (hq : ¬ q = tid) :
    (processHit ps p tid target).players.lookup q = ps.lookup q := by
  unfold processHit
  dsimp only
  rw [hnone]
  split
  · dsimp only
    rw [PMap.lookup_update, if_neg hq]
  · dsimp only
    rw [PMap.lookup_update, if_neg hq]

/-- C3: a hit that brings the target's health to zero or below clamps the
stored health to exactly 0, increments the target's death counter, clears the
target's reloading flag, increments the attacker's kill counter when the
attacker is present and is not the victim (and touches no other record when
the attacker is gone), emits exactly one death event carrying the victim and
attacker identities, and schedules exactly one respawn. -/
theorem C3_lethal_hit (ps : PMap) (p : Projectile) (tid : String)
    (target : Player) (hlook : ps.lookup tid = some target)
    (hown : ¬ p.ownerId = tid)
    (hlethal : target.health - PROJECTILE_DAMAGE ≤ 0) :
    (∃ t', (processHit ps p tid target).players.lookup tid = some t' ∧
      t'.health = 0 ∧ t'.deaths = target.deaths + 1 ∧ t'.reloading = false) ∧
    (∀ a, ps.lookup p.ownerId = some a → ¬ a.id = tid →
      (processHit ps p tid target).players.lookup p.ownerId =
        some { a with kills := a.kills + 1 }) ∧
    (ps.lookup p.ownerId = none → ∀ q, ¬ q = tid →
      (processHit ps p tid target).players.lookup q = ps.lookup q) ∧
    (∃ d, (processHit ps p tid target).death = some d ∧ d.victimId = tid ∧
      d.victimName = target.name ∧ d.attackerId = p.ownerId) ∧
    (processHit ps p tid target).respawnsScheduled = [tid] := by
  have hown' : ¬ tid = p.ownerId := fun h => hown h.symm
  refine ⟨?_, ?_, ?_, ?_, (processHit_death_lethal hlethal).2⟩
  · refine ⟨{ target with
              health := 0,
              deaths := target.deaths + 1,
              reloading := false }, ?_, rfl, rfl, rfl⟩
    rw [processHit_lookup_target hlook hown', if_pos hlethal]
  · intro a ha haid
    exact processHit_lookup_attacker hlethal ha haid hown
  · intro hnone q hq
    exact processHit_lookup_noattacker hnone hq
  · exact ⟨_, (processHit_death_lethal hlethal).1, rfl, rfl, rfl⟩

theorem C3_lethal_hit_witness :
    (PMap.lookup [("x", xp), ("y", ypLow)] "y" = some ypLow ∧
        ¬ proj0.ownerId = "y" ∧ ypLow.health - PROJECTILE_DAMAGE ≤ 0) ∧
      (∃ t', (processHit [("x", xp), ("y", ypLow)] proj0 "y" ypLow).players.lookup
          "y" = some t' ∧ t'.health = 0 ∧ t'.deaths = ypLow.deaths + 1 ∧
          t'.reloading = false) ∧
      (processHit [("x", xp), ("y", ypLow)] proj0 "y" ypLow).players.lookup
          "x" = some { xp with kills := xp.kills + 1 } ∧
      (∃ d, (processHit [("x", xp), ("y", ypLow)] proj0 "y" ypLow).death =
          some d ∧ d.victimId = "y" ∧ d.victimName = ypLow.name ∧
          d.attackerId = proj0.ownerId) ∧
      (processHit [("x", xp), ("y", ypLow)] proj0 "y" ypLow).respawnsScheduled =
        ["y"] := by
  have hlook : PMap.lookup [("x", xp), ("y", ypLow)] "y" = some ypLow := by
    simp [PMap.lookup]
  have h := C3_lethal_hit [("x", xp), ("y", ypLow)] proj0 "y" ypLow hlook
    (by decide) (by decide)
  refine ⟨⟨hlook, by decide, by decide⟩, h.1, ?_, h.2.2.2.1, h.2.2.2.2⟩
  have hlx : PMap.lookup [("x", xp), ("y", ypLow)] proj0.ownerId = some xp := by
    simp [PMap.lookup, proj0]
  exact h.2.1 xp hlx (by decide)

/-- C10: every hit event the physics step emits carries a non-negative
`newHealth` equal to the target's stored health immediately after that hit's
damage and clamping; the code records the event before the zero-clamp, but in
every state reachable from the initial world a stored player's health is a
multiple of 10 within bounds (damage is exactly 10, respawn resets to 100),
so the recorded pre-clamp value is never below zero. -/
theorem C10_hit_event_health :
    (∀ (now dt : ℚ) (ps : PMap) (projs : List Projectile),
        (∀ e ∈ ps, PlayerInv e.2) →
        ∀ ev ∈ (runTick now dt ps projs).hits, 0 ≤ ev.newHealth) ∧
    (∀ (ps : PMap) (p : Projectile) (tid : String) (target : Player),
        ps.lookup tid = some target → ¬ tid = p.ownerId → PlayerInv target →
        0 < target.health →
        ∃ t', (processHit ps p tid target).players.lookup tid = some t' ∧
          (processHit ps p tid target).hit.newHealth = t'.health ∧
          0 ≤ (processHit ps p tid target).hit.newHealth) ∧
    (∀ ops : List Op, ∀ e ∈ (applyOps ops World.init).players,
        (10 : Int) ∣ e.2.health) := by
  refine ⟨?_, ?_, ?_⟩
  · intro now dt ps projs hinv ev hev
    exact hits_nonneg_foldTick now dt projs
      { players := ps, hits := [], deaths := [], removed := [], survivors := [],
        respawnsScheduled := [] } hinv (by simp) ev hev
  · intro ps p tid target hlook hown hinv hpos
    obtain ⟨⟨hb1, hb2, -, -, -, -⟩, hdvd⟩ := hinv
    have hhit := processHit_hit ps p tid target
    by_cases hl : target.health - PROJECTILE_DAMAGE ≤ 0
    · refine ⟨_, by rw [processHit_lookup_target hlook hown, if_pos hl], ?_, ?_⟩
      · rw [hhit]
        dsimp only
        simp only [PROJECTILE_DAMAGE] at hl ⊢
        omega
      · rw [hhit]
        dsimp only
        simp only [PROJECTILE_DAMAGE] at hl ⊢
        omega
    · refine ⟨_, by rw [processHit_lookup_target hlook hown, if_neg hl], ?_, ?_⟩
      · rw [hhit]
      · rw [hhit]
        dsimp only
        simp only [PROJECTILE_DAMAGE] at hl ⊢
        omega
  · intro ops e he
    exact (worldInv_applyOps ops worldInv_init e he).2

theorem C10_hit_event_health_witness :
    (PMap.lookup [("x", xp), ("y", ypLow)] "y" = some ypLow ∧ ¬ "y" = proj0.ownerId ∧
        PlayerInv ypLow ∧ 0 < ypLow.health) ∧
      (∃ t', (processHit [("x", xp), ("y", ypLow)] proj0 "y" ypLow).players.lookup
          "y" = some t' ∧
        (processHit [("x", xp), ("y", ypLow)] proj0 "y" ypLow).hit.newHealth =
          t'.health ∧
        0 ≤ (processHit [("x", xp), ("y", ypLow)] proj0 "y" ypLow).hit.newHealth) := by
  have hlook : PMap.lookup [("x", xp), ("y", ypLow)] "y" = some ypLow := by
    simp [PMap.lookup]
  have hinv : PlayerInv ypLow :=
    ⟨⟨by decide, by decide, by decide, by decide, by decide, by decide⟩,
     ⟨1, by decide⟩⟩
  exact ⟨⟨hlook, by decide, hinv, by decide⟩,
    C10_hit_event_health.2.1 [("x", xp), ("y", ypLow)] proj0 "y" ypLow hlook
      (by decide) hinv (by decide)⟩

/-- C6 counterexample: the source's reload-completion guard compares
`currentPlayer.reloadStartTime` with `player.reloadStartTime`, but `player`
is the closure-captured reference to the same live object, so the comparison
is reflexive and adds nothing.  In a state where the current reload started
at time 5000 while the fired timer belongs to a reload that recorded start
time 1000, the claim (worded as `reloadCompleteSpec`, which checks the
scheduled start time) performs no mutation, yet the code's completion
(`reloadComplete`) transfers the ammo and clears the flag — the stale
completion does mutate state. -/
theorem C6_counterexample :
    ¬ reloadingY.reloadStartTime = 1000 ∧
    reloadCompleteSpec [("y", reloadingY)] "y" 1000 = ([("y", reloadingY)], []) ∧
    (∃ p', (reloadComplete [("y", reloadingY)] "y").1.lookup "y" = some p' ∧
      p'.magazine = 30 ∧ p'.ammo = 25 ∧ p'.reloading = false) ∧
    ¬ (reloadComplete [("y", reloadingY)] "y").1 = [("y", reloadingY)] := by
  have hlook : PMap.lookup [("y", reloadingY)] "y" = some reloadingY := by
    simp [PMap.lookup]
  have hrel : reloadingY.reloading = true := by decide
  refine ⟨?_, ?_, ?_, ?_⟩
  · norm_num [reloadingY, newPlayer]
  · unfold reloadCompleteSpec
    rw [hlook]
    dsimp only
    rw [if_neg (by
      simp only [Bool.and_eq_true, decide_eq_true_eq]
      intro h
      have h2 : reloadingY.reloadStartTime = 1000 := h.2
      norm_num [reloadingY, newPlayer] at h2)]
  · exact ⟨finishReload reloadingY, (reloadComplete_applies hlook hrel).2.1,
      by decide, by decide, by decide⟩
  · intro heq
    have h1 := (reloadComplete_applies hlook hrel).2.1
    rw [heq] at h1
    simp [PMap.lookup] at h1
    exact absurd (congrArg Player.magazine h1) (by decide)

/-- C6 (amended): the reload-completion callback re-validates only that the
player still exists and that the reloading flag is still set — the
`reloadStartTime` comparison in the code reads the aliased live record's
field on both sides and is always true, so it adds no protection.  A death or
a disconnection before the timer fires therefore still results in no ammo
transfer and no error, while any state with the reloading flag set when the
timer fires has the transfer applied, whichever reload set the flag. -/
theorem C6_stale_reload_amended (ps : PMap) (pid : String) :
    (ps.lookup pid = none → reloadComplete ps pid = (ps, [])) ∧
    (∀ p, ps.lookup pid = some p → p.reloading = false →
      reloadComplete ps pid = (ps, [])) ∧
    (∀ p, ps.lookup pid = some p → p.reloading = true →
      (reloadComplete ps pid).1 = ps.update pid (fun _ => finishReload p)) :=
  ⟨reloadComplete_absent,
   fun _p h hr => reloadComplete_notReloading h hr,
   fun _p h hr => (reloadComplete_applies h hr).1⟩

theorem C6_stale_reload_amended_witness :
    (PMap.lookup ([] : PMap) "y" = none) ∧
      reloadComplete ([] : PMap) "y" = (([] : PMap), []) :=
  ⟨rfl, (C6_stale_reload_amended ([] : PMap) "y").1 rfl⟩

/-- C8 counterexample: a shoot command with an invalid (NaN) direction from a
player who passes the shoot guard is not a pure drop: the magazine has
already been decremented when validation runs, so the round is consumed even
though no projectile is created — the player's magazine does not keep its
prior value. -/
theorem C8_counterexample :
    isValidDirection (some nanDir) = false ∧
    xp.magazine = 30 ∧
    (shootHandler "x" xp 0 (some nanDir) (some finiteVec) 0).player.magazine = 29 ∧
    (shootHandler "x" xp 0 (some nanDir) (some finiteVec) 0).newProjectile = none ∧
    (shootHandler "x" xp 0 (some nanDir) (some finiteVec) 0).events = [] := by
  refine ⟨by decide, by decide, ?_, ?_, ?_⟩ <;>
    · rw [shootHandler_invalid (by decide) (by decide) (by decide) (by decide)]
      try decide

/-- C8 (amended): an invalid `player_update` payload leaves the player record
entirely unchanged; a shoot command that fails the shoot guard changes
nothing; a shoot command that passes the guard but carries an invalid
position or direction payload consumes exactly one magazine round and
advances the projectile counter while creating no projectile and emitting no
message; and no message handler ever removes a player (the connection stays
open).  `request_reload` carries no numeric payload. -/
theorem C8_invalid_payload_amended :
    (∀ (p : Player) (pos : Option RawVec3) (rot : Option RawRot),
        (isValidPosition pos && isValidRotation rot) = false →
        playerUpdateHandler p pos rot = p) ∧
    (∀ (pid : String) (p : Player) (c : Nat) (dir sp : Option RawVec3) (now : ℚ),
        ¬ (0 < p.health ∧ p.reloading = false ∧ 0 < p.magazine) →
        shootHandler pid p c dir sp now =
          { player := p, counter := c, newProjectile := none, events := [] }) ∧
    (∀ (pid : String) (p : Player) (c : Nat) (dir sp : Option RawVec3) (now : ℚ),
        0 < p.health → p.reloading = false → 0 < p.magazine →
        (isValidPosition sp && isValidDirection dir) = false →
        shootHandler pid p c dir sp now =
          { player := { p with magazine := p.magazine - 1 }, counter := c + 1,
            newProjectile := none, events := [] }) ∧
    (∀ (w : World) (pid : String) (msg : ClientMsg) (now : ℚ) (q : String),
        ((handleMessage w pid msg now).1.players.lookup q).isSome =
          (w.players.lookup q).isSome) :=
  ⟨fun _p _pos _rot h => playerUpdateHandler_invalid h,
   fun _pid _p _c _dir _sp _now h => shootHandler_reject h,
   fun _pid _p _c _dir _sp _now hh hr hm hb => shootHandler_invalid hh hr hm hb,
   handleMessage_keeps_players⟩

theorem C8_invalid_payload_amended_witness :
    ((isValidPosition (some nanDir) && isValidRotation (some finiteRot)) = false ∧
        playerUpdateHandler xp (some nanDir) (some finiteRot) = xp) ∧
      ((isValidPosition (some finiteVec) && isValidDirection (some nanDir)) = false ∧
        shootHandler "x" xp 0 (some nanDir) (some finiteVec) 0 =
          { player := { xp with magazine := xp.magazine - 1 }, counter := 0 + 1,
            newProjectile := none, events := [] }) :=
  ⟨⟨by decide,
    C8_invalid_payload_amended.1 xp (some nanDir) (some finiteRot) (by decide)⟩,
   ⟨by decide,
    C8_invalid_payload_amended.2.2.1 "x" xp 0 (some nanDir) (some finiteVec) 0
      (by decide) (by decide) (by decide) (by decide)⟩⟩

/-- C9: over a run of ticks, a projectile's id appears in the concatenated
`removedProjectiles` reports at most once, and exactly once as soon as some
tick runs past its lifetime (expiry removes it even if nothing else does);
within a single tick each projectile either expires (lifetime or
out-of-bounds, one removal entry, no hit), or registers exactly one hit
against the first eligible target in the players-object iteration order (one
removal entry), or survives — never more than one of these; and the target
chosen is precisely the first entry of the player list passing the
eligibility test. -/
theorem C9_single_removal (steps : List (ℚ × ℚ)) (w : World)
    (proj : Projectile) (hnd : (w.projectiles.map Projectile.id).Nodup)
    (hp : proj ∈ w.projectiles) :
    ((runTicks steps w).2.count proj.id ≤ 1) ∧
    ((∃ st ∈ steps, st.1 - proj.spawnTime > PROJECTILE_LIFETIME) →
      (runTicks steps w).2.count proj.id = 1) ∧
    (∀ (now dt : ℚ) (acc : TickAcc) (q : Projectile),
      (projExpired now (moveProj dt q) = true ∧
        stepProj now dt acc q = { acc with removed := acc.removed ++ [q.id] })
      ∨ (projExpired now (moveProj dt q) = false ∧
          ∃ tid target,
            findTarget (moveProj dt q) acc.players = some (tid, target) ∧
            stepProj now dt acc q =
              { acc with
                players := (processHit acc.players (moveProj dt q) tid target).players,
                hits := acc.hits ++
                  [(processHit acc.players (moveProj dt q) tid target).hit],
                deaths := acc.deaths ++
                  ((processHit acc.players (moveProj dt q) tid target).death).toList,
                removed := acc.removed ++ [q.id],
                respawnsScheduled := acc.respawnsScheduled ++
                  (processHit acc.players (moveProj dt q) tid target).respawnsScheduled })
      ∨ (projExpired now (moveProj dt q) = false ∧
          findTarget (moveProj dt q) acc.players = none ∧
          stepProj now dt acc q =
            { acc with survivors := acc.survivors ++ [moveProj dt q] })) ∧
    (∀ (pr : Projectile) (ps : PMap) (e : String × Player),
      findTarget pr ps = some e ↔
        ∃ l₁ l₂, ps = l₁ ++ e :: l₂ ∧ eligibleTarget pr e.1 e.2 = true ∧
          ∀ e' ∈ l₁, eligibleTarget pr e'.1 e'.2 = false) := by
  have hcount1 : ((w.projectiles.map Projectile.id)).count proj.id = 1 :=
    List.count_eq_one_of_mem hnd (List.mem_map_of_mem _ hp)
  have hcons := runTicks_count steps w [] proj.id
  have hnil : (([] : List String)).count proj.id = 0 := rfl
  refine ⟨?_, ?_, stepProj_cases, findTarget_eq_some_iff⟩
  · unfold runTicks
    omega
  · intro hex
    have hspawn : ∀ q ∈ w.projectiles, q.id = proj.id →
        q.spawnTime = proj.spawnTime := by
      intro q hq hid
      rw [List.inj_on_of_nodup_map hnd hq hp hid]
    have hg := runTicks_gone steps w [] proj.id proj.spawnTime hspawn hex
    unfold runTicks
    omega

theorem C9_single_removal_witness :
    ((w0.projectiles.map Projectile.id).Nodup ∧ proj0 ∈ w0.projectiles ∧
      ∃ st ∈ [((3000 : ℚ), (1 / 30 : ℚ))],
        st.1 - proj0.spawnTime > PROJECTILE_LIFETIME) ∧
    (runTicks [((3000 : ℚ), (1 / 30 : ℚ))] w0).2.count proj0.id ≤ 1 ∧
    (runTicks [((3000 : ℚ), (1 / 30 : ℚ))] w0).2.count proj0.id = 1 := by
  have hnd : (w0.projectiles.map Projectile.id).Nodup := by decide
  have hp : proj0 ∈ w0.projectiles := List.mem_singleton.mpr rfl
  have hex : ∃ st ∈ [((3000 : ℚ), (1 / 30 : ℚ))],
      st.1 - proj0.spawnTime > PROJECTILE_LIFETIME :=
    ⟨(3000, 1 / 30), List.mem_singleton.mpr rfl,
     by norm_num [proj0, PROJECTILE_LIFETIME]⟩
  have h := C9_single_removal [((3000 : ℚ), (1 / 30 : ℚ))] w0 proj0 hnd hp
  exact ⟨⟨hnd, hp, hex⟩, h.1, h.2.1 hex⟩

end Shooter
